import Mathlib

/-!
Formal model of the portfolio optimizer and backtest engine of the
investment-platform repository (`backend/services/optimizer.py` and
`backend/services/backtest.py`).

Prices, returns and weights are modelled as rationals (the source uses
IEEE doubles; all the arithmetic the claims depend on is exact decimal /
field arithmetic, so `ℚ` is a faithful carrier).  Square roots force the
handful of volatility-style statistics into `ℝ`; every guard the source
evaluates (`std > 0`, `var > 0`, length comparisons) is kept as a
decidable/computable condition on `ℚ` data, mirroring the fact that the
source compares possibly-NaN floats (a NaN comparison is `False`, which
is modelled by an explicit length-defined check).  A float value that the
source can turn into `inf`/`NaN` (an unguarded division by zero) is
modelled as an `Option` with `none` standing for the non-finite outcome.
-/

namespace InvestmentPlatform

/-! ## Python `round` (banker's rounding, used by `round(x, nd)`) -/

/-- Round-half-to-even on a rational, as Python's builtin `round` does for
the exactly-representable values appearing here. -/
def rhe (q : ℚ) : ℤ :=
  let f := ⌊q⌋
  let r := q - f
  if r < 1/2 then f
  else if 1/2 < r then f + 1
  else if Even f then f else f + 1

/-- `round(q, nd)`: round to `nd` decimal places, ties to even. -/
def pyRound (q : ℚ) (nd : ℕ) : ℚ :=
  (rhe (q * 10 ^ nd) : ℚ) / 10 ^ nd

/-- Round-half-to-even on a real number (for the statistics that live in
`ℝ` because of square roots). -/
noncomputable def rheR (x : ℝ) : ℤ :=
  let f := ⌊x⌋
  let r := x - f
  if r < 1/2 then f
  else if 1/2 < r then f + 1
  else if Even f then f else f + 1

/-- `round(x, nd)` on reals. -/
noncomputable def pyRoundR (x : ℝ) (nd : ℕ) : ℝ :=
  (rheR (x * 10 ^ nd) : ℝ) / 10 ^ nd

/-! ## Elementary statistics (pandas semantics, `ddof = 1`) -/

/-- `Series.mean()`. On an empty series pandas yields NaN; the `ℚ` model
yields `0/0 = 0`; every use below is guarded by the same length checks the
source's NaN propagation amounts to. -/
def listMean (l : List ℚ) : ℚ := l.sum / l.length

/-- `Series.var()` with `ddof = 1` (the pandas default).  Defined (finite)
only when the series has at least two entries; pandas yields NaN below
that, which callers must guard for. -/
def sampleVar (l : List ℚ) : ℚ :=
  ((l.map (fun x => (x - listMean l) ^ 2)).sum) / ((l.length : ℚ) - 1)

/-- `np.cov(x, y)[0, 1]` with the default `ddof = 1`. -/
def sampleCov (x y : List ℚ) : ℚ :=
  ((List.zipWith (fun a b => (a - listMean x) * (b - listMean y)) x y).sum) /
    ((x.length : ℚ) - 1)

/-- The source's pattern `series.std() > 0`: `std` is NaN for fewer than
two entries (then `NaN > 0` is `False`), otherwise positive iff the
sample variance is positive. -/
def stdIsPos (l : List ℚ) : Bool :=
  decide (2 ≤ l.length) && decide (0 < sampleVar l)

/-! ## Percent changes -/

/-- Consecutive fractional changes against a running previous value:
the tail of `pct_change()`. -/
def pctSeries (prev : ℚ) : List ℚ → List ℚ
  | [] => []
  | c :: rest => (c / prev - 1) :: pctSeries c rest

/-- `values.pct_change().dropna()` on a one-dimensional series: the first
entry (NaN) is dropped. -/
def valueReturns : List ℚ → List ℚ
  | [] => []
  | x :: xs => pctSeries x xs

/-- Row-wise percent change against the previous row (entrywise). -/
def pctRow (prev cur : List ℚ) : List ℚ :=
  List.zipWith (fun p c => c / p - 1) prev cur

/-- The rows after the first of a matrix `pct_change()`. -/
def pctRows (prev : List ℚ) : List (List ℚ) → List (List ℚ)
  | [] => []
  | c :: rest => pctRow prev c :: pctRows c rest

/-- `price_data.pct_change().fillna(0)` (backtest engine): the first row
becomes a row of zeros, later rows are entrywise fractional changes. -/
def returnsRowsFill : List (List ℚ) → List (List ℚ)
  | [] => []
  | r :: rest => (r.map (fun _ => 0)) :: pctRows r rest

/-- `price_df.pct_change().dropna()` (optimizer): the first row is
dropped. -/
def returnsRowsDrop : List (List ℚ) → List (List ℚ)
  | [] => []
  | r :: rest => pctRows r rest

/-! ## Trading dates and price frames -/

/-- The calendar attributes of a trading date that the engine consumes
(`index.dayofweek`, `index.is_month_start`, `index.is_quarter_start`).
A date is otherwise opaque to the core. -/
structure TradingDate where
  dayofweek : ℕ
  isMonthStart : Bool
  isQuarterStart : Bool
deriving DecidableEq, Repr

/-- An aligned price DataFrame: a column list and date-indexed rows, each
row carrying one closing price per column. -/
structure PriceFrame where
  syms : List String
  rows : List (TradingDate × List ℚ)
deriving DecidableEq, Repr

/-! ## Backtest engine: `_calculate_portfolio_values` -/

/-- `dict.get(key, 0)` on a symbol-keyed weight dict. -/
def dictGet (d : List (String × ℚ)) (s : String) : ℚ :=
  ((d.find? (fun p => p.1 == s)).map Prod.snd).getD 0

/-- `daily_returns.get(symbol, 0)`: look a symbol up in a row of the
returns frame (0 when the column is absent). -/
def rowGet (syms : List String) (row : List ℚ) (s : String) : ℚ :=
  match List.findIdx? (fun t => t == s) syms with
  | some i => row.getD i 0
  | none => 0

/-- Rebalance-date mask for one date, by frequency; an unknown frequency
string falls through to `True` exactly as the source's `else` branch. -/
def rebalanceFlag (freq : String) (d : TradingDate) : Bool :=
  if freq = "daily" then true
  else if freq = "weekly" then d.dayofweek == 0
  else if freq = "monthly" then d.isMonthStart
  else if freq = "quarterly" then d.isQuarterStart
  else true

/-- The day-by-day simulation loop of `_calculate_portfolio_values`.
Each step records `(value after the day, weight state used on the day)`;
the value compounds by the weight-dot-returns daily portfolio return, and
after recording, the weight state is reset to the target `weights` when
the date's rebalance flag is set (and kept unchanged otherwise — note the
source never applies any drift update to `current_weights`). -/
def portfolioSteps (syms : List String) (weights : List (String × ℚ)) (freq : String) :
    List (TradingDate × List ℚ) → ℚ → List (String × ℚ) → List (ℚ × List (String × ℚ))
  | [], _, _ => []
  | (d, row) :: rest, value, cw =>
    let r := (weights.map (fun p => dictGet cw p.1 * rowGet syms row p.1)).sum
    let v := value * (1 + r)
    (v, cw) :: portfolioSteps syms weights freq rest v
      (if rebalanceFlag freq d then weights else cw)

/-- `_calculate_portfolio_values`: daily portfolio value series. -/
def calcPortfolioValues (pf : PriceFrame) (weights : List (String × ℚ))
    (initialValue : ℚ) (freq : String) : List ℚ :=
  let returns := returnsRowsFill (pf.rows.map (·.2))
  (portfolioSteps pf.syms weights freq
    (List.zip (pf.rows.map (·.1)) returns) initialValue weights).map (·.1)

/-! ## Backtest engine: statistics of `run_backtest` -/

/-- The fixed 5% risk-free rate (`RISK_FREE_RATE`). -/
def riskFreeRate : ℚ := 1/20

/-- `excess_return = returns.mean() * 252 - RISK_FREE_RATE`. -/
def excessOf (returns : List ℚ) : ℚ := listMean returns * 252 - riskFreeRate

/-- Sortino ratio exactly as computed in `run_backtest`: annualised
downside deviation in the denominator, reported as `0` whenever
`downside_std > 0` fails (which includes the NaN cases: an empty or
one-element downside series). -/
noncomputable def sortinoOf (returns : List ℚ) : ℝ :=
  let downside := returns.filter (fun r => decide (r < 0))
  if stdIsPos downside then
    ((excessOf returns : ℚ) : ℝ) / (Real.sqrt (sampleVar downside) * Real.sqrt 252)
  else 0

/-- Sharpe ratio of `run_backtest`, with the same `returns.std() > 0`
guard as the source. -/
noncomputable def sharpeOf (returns : List ℚ) : ℝ :=
  if stdIsPos returns then
    ((excessOf returns : ℚ) : ℝ) / (Real.sqrt (sampleVar returns) * Real.sqrt 252)
  else 0

/-- The alpha/beta block of `run_backtest` (lines 140–148): on a length
mismatch between portfolio and benchmark return series the source
executes `alpha, beta = 0, 1`; otherwise beta is `cov/var` guarded by
`benchmark_var > 0` (NaN-false below two entries) and alpha is the
annualised-excess regression residual, in percent. -/
def betaAlpha (returns breturns : List ℚ) : ℚ × ℚ :=
  if returns.length = breturns.length then
    let cov := sampleCov returns breturns
    let beta := if 2 ≤ breturns.length ∧ 0 < sampleVar breturns then
      cov / sampleVar breturns else 1
    let alpha := (listMean returns * 252 - riskFreeRate -
      beta * (listMean breturns * 252 - riskFreeRate)) * 100
    (alpha, beta)
  else (0, 1)

/-- Running maximum after a given seed (`Series.cummax()`). -/
def runningMaxAux (m : ℚ) : List ℚ → List ℚ
  | [] => []
  | x :: xs => max m x :: runningMaxAux (max m x) xs

/-- `portfolio_values.cummax()`. -/
def runningMax : List ℚ → List ℚ
  | [] => []
  | x :: xs => x :: runningMaxAux x xs

/-- `((values - cummax) / cummax).min()` (0 on an empty series, which the
engine never reaches because empty data raises earlier). -/
def drawdownMin (pv : List ℚ) : ℚ :=
  ((List.zipWith (fun v m => (v - m) / m) pv (runningMax pv)).min?).getD 0

/-- The statistical fields of a `BacktestResult` (the date range echo and
the constant trade counters are omitted; the equity curve is the pair of
value series already present as inputs). -/
structure BTStats where
  tradingDays : ℕ
  totalReturn : ℚ
  cagr : ℝ
  volatility : Option ℝ
  sharpe : ℝ
  sortino : ℝ
  maxDrawdown : ℚ
  benchmarkReturn : ℚ
  alpha : ℚ
  beta : ℚ

/-- Lines 112–173 of `run_backtest`: every statistic as a function of the
two daily value series.  `volatility` is `none` when `returns.std()` is
NaN (fewer than two returns), matching the unguarded
`returns.std() * sqrt(252) * 100`. -/
noncomputable def btStatsOf (pv bv : List ℚ) : BTStats :=
  let returns := valueReturns pv
  let breturns := valueReturns bv
  let years : ℚ := (pv.length : ℚ) / 252
  let ab := betaAlpha returns breturns
  { tradingDays := pv.length
    totalReturn := pyRound ((pv.getLastD 0 / pv.headD 0 - 1) * 100) 2
    cagr := pyRoundR ((((pv.getLastD 0 / pv.headD 0 : ℚ) : ℝ) ^ ((1 : ℝ) / (years : ℝ)) - 1) * 100) 2
    volatility := if 2 ≤ returns.length then
      some (pyRoundR (Real.sqrt (sampleVar returns) * Real.sqrt 252 * 100) 2) else none
    sharpe := pyRoundR (sharpeOf returns) 2
    sortino := pyRoundR (sortinoOf returns) 2
    maxDrawdown := pyRound (drawdownMin pv * 100) 2
    benchmarkReturn := pyRound ((bv.getLastD 0 / bv.headD 0 - 1) * 100) 2
    alpha := pyRound ab.1 2
    beta := pyRound ab.2 2 }

/-- `portfolio = {k: v / total for ...}`: weight normalisation at the top
of `run_backtest`. -/
def normalizeDict (portfolio : List (String × ℚ)) : List (String × ℚ) :=
  let total := (portfolio.map Prod.snd).sum
  portfolio.map (fun p => (p.1, p.2 / total))

/-- The portfolio value series `run_backtest` computes. -/
def btPortfolioValues (portfolio : List (String × ℚ)) (priceData : PriceFrame)
    (initialValue : ℚ) (freq : String) : List ℚ :=
  calcPortfolioValues priceData (normalizeDict portfolio) initialValue freq

/-- The benchmark value series: 100% in the benchmark, rebalanced
daily. -/
def btBenchValues (benchmark : String) (benchData : PriceFrame)
    (initialValue : ℚ) : List ℚ :=
  calcPortfolioValues benchData [(benchmark, 1)] initialValue "daily"

/-- The statistics record `run_backtest` reports for given (already
fetched and aligned) portfolio and benchmark price frames. -/
noncomputable def btStats (portfolio : List (String × ℚ)) (priceData : PriceFrame)
    (benchmark : String) (benchData : PriceFrame) (initialValue : ℚ)
    (freq : String) : BTStats :=
  btStatsOf (btPortfolioValues portfolio priceData initialValue freq)
    (btBenchValues benchmark benchData initialValue)

/-- `run_backtest` on fetched data: raises (`ValueError`) when the
aligned portfolio price frame is empty, otherwise reports the
statistics. -/
noncomputable def runBacktest (portfolio : List (String × ℚ)) (priceData : PriceFrame)
    (benchmark : String) (benchData : PriceFrame) (initialValue : ℚ)
    (freq : String) : Except String BTStats :=
  if priceData.rows.isEmpty then
    Except.error "No price data available for the specified period"
  else
    Except.ok (btStats portfolio priceData benchmark benchData initialValue freq)

/-! ## Optimizer: `optimize` -/

/-- `RiskProfile` enumeration. -/
inductive RiskProfile
  | conservative
  | moderate
  | aggressive
  | ultraAggressive
deriving DecidableEq, Repr

/-- `RISK_LIMITS[profile]["max_volatility"]`. -/
def maxVolatility : RiskProfile → ℚ
  | .conservative => 1/10
  | .moderate => 1/5
  | .aggressive => 7/20
  | .ultraAggressive => 1/2

/-- `RISK_LIMITS[profile]["max_single"]`. -/
def maxSingle : RiskProfile → ℚ
  | .conservative => 3/20
  | .moderate => 1/4
  | .aggressive => 7/20
  | .ultraAggressive => 1/2

/-- `returns_df.mean() * 252`: annualised per-column means. -/
def annualizedMeans (rows : List (List ℚ)) : List ℚ :=
  rows.transpose.map (fun c => listMean c * 252)

/-- `returns_df.cov() * 252`: annualised sample covariance matrix
(pandas `ddof = 1`). -/
def annualizedCov (rows : List (List ℚ)) : List (List ℚ) :=
  let cols := rows.transpose
  cols.map (fun ci => cols.map (fun cj => sampleCov ci cj * 252))

/-- `np.sum(mean_returns * weights)`. -/
def portReturn (meanR w : List ℚ) : ℚ := (List.zipWith (· * ·) meanR w).sum

/-- `np.dot(weights.T, np.dot(cov_matrix, weights))` — the squared
portfolio volatility (the source takes its square root). -/
def portVolSq (cov : List (List ℚ)) (w : List ℚ) : ℚ :=
  (List.zipWith (fun wi row => wi * (List.zipWith (· * ·) row w).sum) w cov).sum

/-- `np.array([1/n] * n)`: the equal-weight initial guess. -/
def initialWeights (n : ℕ) : List ℚ := List.replicate n (1 / (n : ℚ))

/-- The weight vector coming out of the `minimize` call: the solver's
solution on success, the equal-weight initial guess on failure (the
SLSQP solver itself is external numerics and enters the model as the
`outcome` parameter; the constraints handed to it are the sum-to-one
equality, the `max_volatility` inequality and the
`[min_weight, max_single]` box bounds). -/
def chosenWeights (n : ℕ) (outcome : Option (List ℚ)) : List ℚ :=
  match outcome with
  | some x => x
  | none => initialWeights n

/-- `optimal_weights / np.sum(optimal_weights)`: the renormalisation
after the solve. -/
def normalizeL (w : List ℚ) : List ℚ := w.map (fun x => x / w.sum)

/-- The `weights_dict` loop: walk `symbols` against the weight vector,
keep symbols whose (pre-rounding) weight clears `min_weight`, store the
weight rounded to 4 decimals. -/
def weightsDict : List String → List ℚ → ℚ → List (String × ℚ)
  | [], _, _ => []
  | _, [], _ => []
  | s :: ss, v :: vs, minW =>
    if minW ≤ v then (s, pyRound v 4) :: weightsDict ss vs minW
    else weightsDict ss vs minW

/-- The fields of an `OptimizationResult` the core computes (the
allocation rows additionally consult a live quote provider and carry no
claim content).  `sharpe` is an `Option`: the source divides by
`port_vol` with no guard, so a zero (or NaN) volatility produces a
non-finite float, modelled as `none`. -/
structure OptResult where
  weights : List (String × ℚ)
  expectedReturn : ℚ
  volatility : ℝ
  sharpe : Option ℝ

/-- `optimize` after a successful matrix build with all `n = len(symbols)`
columns present: annualised moments, solver outcome (or equal-weight
fallback), renormalisation, metrics, and the floor-filtered rounded
weight dict.  `profile` fixes the bounds/constraints communicated to the
solver through `outcome`; `min_weight` additionally drives the final
filter. -/
noncomputable def optimizeCore (symbols : List String) (rows : List (List ℚ))
    (minWeight : ℚ) (profile : RiskProfile) (outcome : Option (List ℚ)) : OptResult :=
  let n := symbols.length
  let meanR := annualizedMeans rows
  let cov := annualizedCov rows
  let w := normalizeL (chosenWeights n outcome)
  let ret := portReturn meanR w
  let volSq := portVolSq cov w
  { weights := weightsDict symbols w minWeight
    expectedReturn := pyRound (ret * 100) 2
    volatility := pyRoundR (Real.sqrt (volSq : ℚ) * 100) 2
    sharpe := if 0 < volSq then
        some (pyRoundR (((ret - riskFreeRate : ℚ) : ℝ) / Real.sqrt (volSq : ℚ)) 2)
      else none }

/-! ## Matrix building from the price-history provider -/

/-- The symbols whose fetched history is non-empty (the `if not
hist.empty` filter); a failed or empty fetch is silently skipped. -/
def keptSymbols (fetch : String → List (TradingDate × ℚ)) (symbols : List String) :
    List String :=
  symbols.filter (fun s => !(fetch s).isEmpty)

/-- The date index of one fetched series. -/
def seriesDates (fetch : String → List (TradingDate × ℚ)) (s : String) :
    List TradingDate :=
  (fetch s).map (·.1)

/-- `pd.DataFrame(prices).dropna()`'s surviving index: the dates of the
first kept series that every other kept series also has (inner join). -/
def commonDates (fetch : String → List (TradingDate × ℚ)) :
    List String → List TradingDate
  | [] => []
  | s :: rest =>
    (seriesDates fetch s).filter
      (fun d => rest.all (fun s2 => (seriesDates fetch s2).contains d))

/-- Price of a series at a date (the date is always present at use
sites). -/
def lookupPrice (series : List (TradingDate × ℚ)) (d : TradingDate) : ℚ :=
  ((series.find? (fun p => p.1 == d)).map Prod.snd).getD 0

/-- The aligned price frame built from per-symbol fetches: one column per
kept symbol, one row per common date. -/
def priceFrameOf (fetch : String → List (TradingDate × ℚ)) (symbols : List String) :
    PriceFrame :=
  let ks := keptSymbols fetch symbols
  { syms := ks
    rows := (commonDates fetch ks).map
      (fun d => (d, ks.map (fun s => lookupPrice (fetch s) d))) }

/-- `_get_returns_matrix`: aligned prices, then `pct_change().dropna()`. -/
def returnsMatrixOf (fetch : String → List (TradingDate × ℚ)) (symbols : List String) :
    List (List ℚ) :=
  returnsRowsDrop ((priceFrameOf fetch symbols).rows.map (·.2))

/-- `optimize` from the fetch level.  After the empty-matrix check the
source calls `minimize`, whose first objective evaluation computes
`mean_returns * weights` — a pandas Series of one entry per *kept* symbol
against an ndarray of `n_assets = len(symbols)` entries.  When a symbol
was dropped the lengths differ and pandas raises `ValueError` out of
`optimize`; the second guard models that raise. -/
noncomputable def optimizeRun (fetch : String → List (TradingDate × ℚ))
    (symbols : List String) (minWeight : ℚ) (profile : RiskProfile)
    (outcome : Option (List ℚ)) : Except String OptResult :=
  let ks := keptSymbols fetch symbols
  let rows := returnsMatrixOf fetch symbols
  if rows.isEmpty then
    Except.error "Could not fetch historical data for optimization"
  else if ks.length ≠ symbols.length then
    Except.error "Lengths must match"
  else
    Except.ok (optimizeCore symbols rows minWeight profile outcome)

/-! ## Optimizer: `get_efficient_frontier` -/

/-- One entry of the frontier list: `{"return": …, "volatility": …,
"sharpe": …}` with the source's 2-decimal rounding already applied.
`ret` stays rational (no square root); `vol` carries the square root;
`sharpe` is `none` for the unguarded division's non-finite outcome. -/
structure FrontPt where
  ret : ℚ
  vol : ℝ
  sharpe : Option ℝ

/-- Return/volatility/Sharpe of one random portfolio: the draw is
normalised to sum 1 (no box constraints) and the three reported numbers
are rounded to 2 decimals. -/
noncomputable def frontierPoint (meanR : List ℚ) (cov : List (List ℚ))
    (draw : List ℚ) : FrontPt :=
  let w := normalizeL draw
  let r := portReturn meanR w
  let volSq := portVolSq cov w
  { ret := pyRound (r * 100) 2
    vol := pyRoundR (Real.sqrt (volSq : ℚ) * 100) 2
    sharpe := if 0 < volSq then
        some (pyRoundR (((r - riskFreeRate : ℚ) : ℝ) / Real.sqrt (volSq : ℚ)) 2)
      else none }

/-- `max_return` starts at `-inf`; an absent value compares below every
stored return. -/
def keepPt (m : Option ℚ) (r : ℚ) : Bool :=
  match m with
  | none => true
  | some v => decide (v < r)

/-- The Pareto scan over the volatility-sorted list: keep a point iff its
return strictly exceeds the running maximum. -/
def effScan : List FrontPt → Option ℚ → List FrontPt
  | [], _ => []
  | p :: rest, m =>
    if keepPt m p.ret then p :: effScan rest (some p.ret)
    else effScan rest m

/-- `get_efficient_frontier` for a given returns matrix and a given
sequence of random draws (`np.random.random(n_assets)` per candidate —
the randomness is an input here): empty matrix short-circuits to `[]`;
otherwise score every draw, sort ascending by the stored volatility
(Python's stable sort), scan for strictly increasing returns, and keep at
most `nPortfolios` points. -/
noncomputable def getEfficientFrontier (rows : List (List ℚ))
    (draws : List (List ℚ)) (nPortfolios : ℕ) : List FrontPt :=
  if rows.isEmpty then []
  else
    let meanR := annualizedMeans rows
    let cov := annualizedCov rows
    let pts := draws.map (frontierPoint meanR cov)
    let sorted := pts.mergeSort (fun a b => decide (a.vol ≤ b.vol))
    (effScan sorted none).take nPortfolios

/-! ## Auxiliary view of the simulation loop -/

/-- The weight state the engine uses on each trading day (the second
component of the simulation steps — `calcPortfolioValues` keeps the first
component). -/
def portfolioWeightStates (pf : PriceFrame) (weights : List (String × ℚ))
    (initialValue : ℚ) (freq : String) : List (List (String × ℚ)) :=
  let returns := returnsRowsFill (pf.rows.map (·.2))
  (portfolioSteps pf.syms weights freq
    (List.zip (pf.rows.map (·.1)) returns) initialValue weights).map (·.2)

/-! ## Concrete fixtures -/

/-- A weekday that is neither a Monday nor a month/quarter start. -/
def day1 : TradingDate := ⟨1, false, false⟩

/-- A second such weekday. -/
def day2 : TradingDate := ⟨2, false, false⟩

/-- A third such weekday. -/
def day3 : TradingDate := ⟨3, false, false⟩

/-- Two assets over three days: on the second day asset A doubles while
asset B is flat, and no day is a rebalance date for any non-daily
frequency. -/
def c1frame : PriceFrame :=
  ⟨["A", "B"], [(day1, [1, 1]), (day2, [2, 1]), (day3, [2, 1])]⟩

/-- Equal target weights over the two assets. -/
def c1weights : List (String × ℚ) := [("A", 1/2), ("B", 1/2)]

/-- A 2-row, 2-column returns matrix with constant columns: its sample
covariance matrix is identically zero. -/
def c4rows : List (List ℚ) := [[1/100, 1/100], [1/100, 1/100]]

/-- A small 2-column returns matrix. -/
def rows2 : List (List ℚ) := [[1/100, 2/100], [2/100, 1/100]]

/-- A small 3-column returns matrix. -/
def rows3 : List (List ℚ) := [[1/100, 2/100, 3/100], [2/100, 1/100, 1/100]]

/-- A small 4-column returns matrix. -/
def rows4 : List (List ℚ) :=
  [[1/100, 2/100, 3/100, 1/100], [2/100, 1/100, 1/100, 1/100]]

/-- A single-asset price frame over three days. -/
def c7priceFrame : PriceFrame :=
  ⟨["A"], [(day1, [1]), (day2, [1]), (day3, [2])]⟩

/-- A benchmark frame over only two days (shorter than
`c7priceFrame`). -/
def c7benchFrame : PriceFrame := ⟨["B"], [(day1, [1]), (day2, [2])]⟩

/-- A one-asset portfolio. -/
def c7portfolio : List (String × ℚ) := [("A", 1)]

/-- A provider for which symbol A has a three-day history and every other
symbol has none. -/
def c8fetch : String → List (TradingDate × ℚ) := fun s =>
  if s = "A" then [(day1, 1), (day2, 2), (day3, 4)] else []

/-! # Theorems

General lemmas first, then one theorem (plus witness or counterexample
where applicable) per claim. -/

/-- The simulation loop is insensitive to the rebalance frequency when
started in the target-weight state: the only assignment to the weight
state is a reset to the very same target weights. -/
theorem portfolioSteps_freq (syms : List String) (w : List (String × ℚ))
    (f₁ f₂ : String) :
    ∀ (l : List (TradingDate × List ℚ)) (v : ℚ),
      portfolioSteps syms w f₁ l v w = portfolioSteps syms w f₂ l v w := by
  intro l
  induction l with
  | nil => intro v; rfl
  | cons h t ih =>
    intro v
    obtain ⟨d, row⟩ := h
    simp only [portfolioSteps, ite_self]
    exact congrArg _ (ih _)

/-- The value-series form of the frequency-insensitivity lemma. -/
theorem calcPortfolioValues_freq (pf : PriceFrame) (w : List (String × ℚ))
    (initialValue : ℚ) (f₁ f₂ : String) :
    calcPortfolioValues pf w initialValue f₁ = calcPortfolioValues pf w initialValue f₂ := by
  simp only [calcPortfolioValues]
  rw [portfolioSteps_freq _ _ f₁ f₂]

/-- C1: the spec asserts that between rebalance dates the internal weight
state drifts with relative asset performance, so that on a non-rebalance
day after a day of unequal asset moves the weights in use differ from the
targets.  The code never updates `current_weights` between rebalances, so
the claim fails: in `c1frame` asset A doubles on day 2 while B is flat,
day 3 is not a rebalance date under the monthly frequency, yet the weight
state used on day 3 (index 2) still equals the original targets. -/
theorem c1_weights_do_not_drift :
    (portfolioWeightStates c1frame c1weights 10000 "monthly")[2]? = some c1weights := by
  norm_num [portfolioWeightStates, portfolioSteps, c1frame, c1weights, day1, day2,
    day3, returnsRowsFill, pctRows, pctRow, rebalanceFlag, dictGet, rowGet]

/-- C2: for every price frame, weight dict, initial value and benchmark,
both the portfolio value series of `_calculate_portfolio_values` and the
whole statistics record of `run_backtest` are identical for any two
rebalance frequencies — the frequency argument has no effect. -/
theorem c2_rebalance_frequency_has_no_effect (weights portfolio : List (String × ℚ))
    (priceData : PriceFrame) (benchmark : String) (benchData : PriceFrame)
    (initialValue : ℚ) (freq freq' : String) :
    calcPortfolioValues priceData weights initialValue freq
        = calcPortfolioValues priceData weights initialValue freq'
      ∧ runBacktest portfolio priceData benchmark benchData initialValue freq
        = runBacktest portfolio priceData benchmark benchData initialValue freq' := by
  refine ⟨calcPortfolioValues_freq _ _ _ freq freq', ?_⟩
  simp only [runBacktest, btStats, btPortfolioValues]
  rw [calcPortfolioValues_freq _ _ _ freq freq']

/-- Banker's rounding moves a rational by at most one half. -/
theorem rhe_close (q : ℚ) : |(rhe q : ℚ) - q| ≤ 1/2 := by
  have h0 : ((⌊q⌋ : ℚ)) ≤ q := Int.floor_le q
  have h1 : q < (⌊q⌋ : ℚ) + 1 := Int.lt_floor_add_one q
  simp only [rhe]
  split_ifs with hc1 hc2 hc3 <;>
    (rw [abs_le]; push_cast; constructor <;> linarith)

/-- `round(q, nd)` moves a rational by at most half an ulp of the
`nd`-decimal grid. -/
theorem pyRound_close (q : ℚ) (nd : ℕ) : |pyRound q nd - q| ≤ 1 / (2 * 10 ^ nd) := by
  have hp : (0:ℚ) < 10 ^ nd := by positivity
  have h := rhe_close (q * 10 ^ nd)
  have key : pyRound q nd - q = ((rhe (q * 10 ^ nd) : ℚ) - q * 10 ^ nd) / 10 ^ nd := by
    rw [pyRound]; field_simp; ring
  rw [key, abs_div, abs_of_pos hp, div_le_iff₀ hp]
  calc |(rhe (q * 10 ^ nd) : ℚ) - q * 10 ^ nd| ≤ 1/2 := h
    _ = 1 / (2 * 10 ^ nd) * 10 ^ nd := by field_simp

/-- Four-decimal rounding moves a weight by at most `5e-5`. -/
theorem pyRound4_close (q : ℚ) : |pyRound q 4 - q| ≤ 1/20000 := by
  have h := pyRound_close q 4
  norm_num at h
  exact h

/-- Summing four-decimal roundings moves a list sum by at most `5e-5`
per entry. -/
theorem sum_pyRound4_close (l : List ℚ) :
    |((l.map (fun v => pyRound v 4)).sum) - l.sum| ≤ (l.length : ℚ) * (1 / 20000) := by
  induction l with
  | nil => simp
  | cons x xs ih =>
    have h1 := pyRound4_close x
    simp only [List.map_cons, List.sum_cons, List.length_cons]
    have hsplit : pyRound x 4 + (xs.map (fun v => pyRound v 4)).sum - (x + xs.sum)
        = (pyRound x 4 - x) + ((xs.map (fun v => pyRound v 4)).sum - xs.sum) := by ring
    rw [hsplit]
    have h2 := abs_add (pyRound x 4 - x) ((xs.map (fun v => pyRound v 4)).sum - xs.sum)
    have h3 : ((xs.length + 1 : ℕ) : ℚ) * (1/20000)
        = 1/20000 + (xs.length : ℚ) * (1/20000) := by push_cast; ring
    rw [h3]
    exact h2.trans (add_le_add h1 ih)

/-- Dividing every entry divides the sum. -/
theorem sum_map_div (l : List ℚ) (c : ℚ) :
    (l.map (fun x => x / c)).sum = l.sum / c := by
  induction l with
  | nil => simp
  | cons x xs ih => simp [ih, add_div]

/-- Renormalisation produces an exactly-unit sum whenever the incoming
sum is nonzero. -/
theorem normalizeL_sum {w : List ℚ} (h : w.sum ≠ 0) : (normalizeL w).sum = 1 := by
  rw [normalizeL, sum_map_div, div_self h]

/-- Renormalising a vector that already sums to one is the identity. -/
theorem normalizeL_eq_self {w : List ℚ} (h : w.sum = 1) : normalizeL w = w := by
  simp [normalizeL, h]

/-- Renormalisation preserves length. -/
theorem normalizeL_length (w : List ℚ) : (normalizeL w).length = w.length := by
  simp [normalizeL]

/-- The equal-weight guess sums to one for a non-empty symbol set. -/
theorem initialWeights_sum {n : ℕ} (h : n ≠ 0) : (initialWeights n).sum = 1 := by
  have hn : ((n : ℚ)) ≠ 0 := Nat.cast_ne_zero.mpr h
  simp [initialWeights, List.sum_replicate, nsmul_eq_mul]
  exact mul_inv_cancel₀ hn

/-- When every weight clears the floor, the dict keeps every symbol and
stores each weight rounded to four decimals. -/
theorem weightsDict_map_snd : ∀ (syms : List String) (w : List ℚ) (minW : ℚ),
    syms.length = w.length → (∀ v ∈ w, minW ≤ v) →
    (weightsDict syms w minW).map Prod.snd = w.map (fun v => pyRound v 4) := by
  intro syms
  induction syms with
  | nil =>
    intro w minW hlen _
    have : w = [] := List.eq_nil_of_length_eq_zero hlen.symm
    subst this; rfl
  | cons s ss ih =>
    intro w minW hlen hall
    cases w with
    | nil => simp at hlen
    | cons v vs =>
      have hv : minW ≤ v := hall v (List.mem_cons_self _ _)
      simp only [weightsDict, if_pos hv, List.map_cons]
      have := ih vs minW (by simpa using hlen) (fun u hu => hall u (List.mem_cons_of_mem _ hu))
      rw [this]

/-- The fallback dict: every symbol paired with the rounded equal
weight. -/
theorem weightsDict_replicate : ∀ (syms : List String) (a minW : ℚ), minW ≤ a →
    weightsDict syms (List.replicate syms.length a) minW
      = syms.map (fun s => (s, pyRound a 4)) := by
  intro syms
  induction syms with
  | nil => intro a minW _; rfl
  | cons s ss ih =>
    intro a minW h
    simp only [List.length_cons, List.replicate_succ, weightsDict, if_pos h, List.map_cons]
    rw [ih a minW h]

/-- Every stored weight is the four-decimal rounding of a pre-filter
weight that cleared the floor. -/
theorem weightsDict_mem : ∀ (syms : List String) (w : List ℚ) (minW : ℚ)
    (p : String × ℚ), p ∈ weightsDict syms w minW →
    ∃ v ∈ w, minW ≤ v ∧ p.2 = pyRound v 4 := by
  intro syms
  induction syms with
  | nil => intro w minW p hp; simp [weightsDict] at hp
  | cons s ss ih =>
    intro w minW p hp
    cases w with
    | nil => simp [weightsDict] at hp
    | cons v vs =>
      by_cases hv : minW ≤ v
      · simp only [weightsDict, if_pos hv, List.mem_cons] at hp
        rcases hp with hp | hp
        · exact ⟨v, List.mem_cons_self _ _, hv, by rw [hp]⟩
        · obtain ⟨u, hu, h1, h2⟩ := ih vs minW p hp
          exact ⟨u, List.mem_cons_of_mem _ hu, h1, h2⟩
      · simp only [weightsDict, if_neg hv] at hp
        obtain ⟨u, hu, h1, h2⟩ := ih vs minW p hp
        exact ⟨u, List.mem_cons_of_mem _ hu, h1, h2⟩

/-- C3 (counterexample): the claim "the sum of the returned weights
mapping is within 1e-6 of 1" fails: on the equal-weight fallback over
three symbols each stored weight is `round(1/3, 4) = 0.3333` and the dict
sums to `0.9999`, which is `1e-4` away from 1. -/
theorem c3_sum_counterexample :
    ¬ |(((optimizeCore ["A", "B", "C"] rows3 (1/50) RiskProfile.moderate
      none).weights.map Prod.snd).sum) - 1| ≤ 1/1000000 := by
  norm_num [optimizeCore, chosenWeights, initialWeights, normalizeL, weightsDict,
    pyRound, rhe, List.replicate]
  rw [show |(1:ℚ)/10000| = 1/10000 from abs_of_pos (by norm_num)]
  norm_num

/-- C3 (amended): the weight vector after renormalisation and before
rounding/filtering sums to exactly 1 whenever the pre-normalisation sum
is nonzero; the returned mapping, when no asset is dropped by the
`min_weight` floor, sums to 1 within `n * 5e-5` (each stored entry is
rounded to 4 decimal places), not within the claimed `1e-6`. -/
theorem c3_sum_amended (symbols : List String) (rows : List (List ℚ)) (minWeight : ℚ)
    (profile : RiskProfile) (outcome : Option (List ℚ))
    (hsum : (chosenWeights symbols.length outcome).sum ≠ 0)
    (hlen : symbols.length = (chosenWeights symbols.length outcome).length)
    (hall : ∀ v ∈ normalizeL (chosenWeights symbols.length outcome), minWeight ≤ v) :
    |(((optimizeCore symbols rows minWeight profile outcome).weights.map Prod.snd).sum) - 1|
      ≤ (symbols.length : ℚ) * (1 / 20000) := by
  have hlen' : symbols.length = (normalizeL (chosenWeights symbols.length outcome)).length := by
    rw [normalizeL_length]; exact hlen
  have h1 : (optimizeCore symbols rows minWeight profile outcome).weights
      = weightsDict symbols (normalizeL (chosenWeights symbols.length outcome)) minWeight := by
    simp only [optimizeCore]
  rw [h1, weightsDict_map_snd symbols _ minWeight hlen' hall]
  have h2 : (normalizeL (chosenWeights symbols.length outcome)).sum = 1 := normalizeL_sum hsum
  have h3 := sum_pyRound4_close (normalizeL (chosenWeights symbols.length outcome))
  rw [h2] at h3
  rw [← hlen'] at h3
  exact h3

/-- C3 (witness): the amended bound at a concrete four-symbol fallback
(the rounded dict sums to exactly 1 there). -/
theorem c3_sum_amended_witness :
    |(((optimizeCore ["A", "B", "C", "D"] rows4 (1/50) RiskProfile.moderate
      none).weights.map Prod.snd).sum) - 1|
      ≤ ((["A", "B", "C", "D"].length : ℕ) : ℚ) * (1 / 20000) :=
  c3_sum_amended ["A", "B", "C", "D"] rows4 (1/50) RiskProfile.moderate none
    (by norm_num [chosenWeights, initialWeights, List.sum_replicate])
    (by norm_num [chosenWeights, initialWeights])
    (by norm_num [normalizeL, chosenWeights, initialWeights, List.replicate])

/-- C5 (counterexample): on solver failure with three symbols the
returned weights are `0.3333` each (the 4-decimal rounding of `1/3`), not
exactly `1/3` as claimed. -/
theorem c5_fallback_counterexample :
    ((optimizeCore ["A", "B", "C"] rows3 (1/50) RiskProfile.moderate
      none).weights.map Prod.snd) ≠ List.replicate 3 ((1 : ℚ)/3) := by
  norm_num [optimizeCore, chosenWeights, initialWeights, normalizeL, weightsDict,
    pyRound, rhe, List.replicate]

/-- C5 (amended): on solver failure the pre-rounding weight state is
exactly `1/n` per symbol; the returned mapping pairs every one of the `n`
symbols (provided `1/n` clears `min_weight`) with `round(1/n, 4)` — the
4-decimal rounding of the equal weight, which differs from `1/n` whenever
`1/n` is not a 4-decimal number. -/
theorem c5_fallback_amended (symbols : List String) (rows : List (List ℚ))
    (minWeight : ℚ) (profile : RiskProfile) (hne : symbols ≠ [])
    (hmin : minWeight ≤ 1 / (symbols.length : ℚ)) :
    (optimizeCore symbols rows minWeight profile none).weights
      = symbols.map (fun s => (s, pyRound (1 / (symbols.length : ℚ)) 4)) := by
  have hn : symbols.length ≠ 0 := fun h => hne (List.eq_nil_of_length_eq_zero h)
  have hself : normalizeL (initialWeights symbols.length) = initialWeights symbols.length :=
    normalizeL_eq_self (initialWeights_sum hn)
  simp only [optimizeCore, chosenWeights]
  rw [hself]
  simp only [initialWeights]
  exact weightsDict_replicate symbols _ minWeight hmin

/-- C5 (witness): the amended statement at four symbols, where the equal
weight `1/4` is 4-decimal exact. -/
theorem c5_fallback_amended_witness :
    (optimizeCore ["A", "B", "C", "D"] rows4 (1/50) RiskProfile.moderate none).weights
      = [("A", 1/4), ("B", 1/4), ("C", 1/4), ("D", 1/4)] := by
  rw [c5_fallback_amended ["A", "B", "C", "D"] rows4 (1/50) RiskProfile.moderate
    (by simp) (by norm_num)]
  norm_num [pyRound, rhe]

/-- C6 (counterexample): the claim that every returned weight lies in
`[min_weight, max_single]` fails on the equal-weight fallback: with two
symbols under the moderate profile the stored weight `1/2` exceeds
`max_single = 1/4`. -/
theorem c6_bounds_counterexample :
    ("A", (1:ℚ)/2) ∈ (optimizeCore ["A", "B"] rows2 (1/50) RiskProfile.moderate
      none).weights ∧ ¬ ((1:ℚ)/2 ≤ maxSingle RiskProfile.moderate) := by
  constructor
  · norm_num [optimizeCore, chosenWeights, initialWeights, normalizeL, weightsDict,
      pyRound, rhe, List.replicate]
  · norm_num [maxSingle]

/-- C6 (amended): when the solver succeeds with a solution that respects
the box constraints and sums to 1 (so that renormalisation is the
identity), every weight in the returned mapping lies within
`[min_weight - 5e-5, max_single + 5e-5]` — the 4-decimal rounding of the
stored entries can leave the exact interval by half an ulp; the
equal-weight fallback path can violate the upper bound outright. -/
theorem c6_bounds_amended (symbols : List String) (rows : List (List ℚ))
    (minWeight : ℚ) (profile : RiskProfile) (x : List ℚ) (hsum : x.sum = 1)
    (hbox : ∀ v ∈ x, minWeight ≤ v ∧ v ≤ maxSingle profile) :
    ∀ p ∈ (optimizeCore symbols rows minWeight profile (some x)).weights,
      minWeight - 1/20000 ≤ p.2 ∧ p.2 ≤ maxSingle profile + 1/20000 := by
  intro p hp
  have h1 : (optimizeCore symbols rows minWeight profile (some x)).weights
      = weightsDict symbols x minWeight := by
    simp only [optimizeCore, chosenWeights]
    rw [normalizeL_eq_self hsum]
  rw [h1] at hp
  obtain ⟨v, hv, hminv, hp2⟩ := weightsDict_mem symbols x minWeight p hp
  obtain ⟨hlo, hhi⟩ := hbox v hv
  have hc := pyRound4_close v
  rw [abs_le] at hc
  exact ⟨by rw [hp2]; linarith [hc.1], by rw [hp2]; linarith [hc.2]⟩

/-- C6 (witness): the amended bounds at a concrete in-bounds solver
solution over four symbols under the moderate profile. -/
theorem c6_bounds_amended_witness :
    (1:ℚ)/50 - 1/20000 ≤ 1/4 ∧ (1:ℚ)/4 ≤ maxSingle RiskProfile.moderate + 1/20000 :=
  c6_bounds_amended ["A", "B", "C", "D"] rows4 (1/50) RiskProfile.moderate
    [1/4, 1/4, 1/4, 1/4] (by norm_num) (by norm_num [maxSingle]) ("A", 1/4)
    (by norm_num [optimizeCore, chosenWeights, normalizeL, weightsDict, pyRound, rhe])

/-- Real banker's rounding fixes zero. -/
theorem rheR_zero : rheR 0 = 0 := by
  norm_num [rheR, Int.floor_zero]

/-- Real `round(0, nd) = 0`. -/
theorem pyRoundR_zero (nd : ℕ) : pyRoundR 0 nd = 0 := by
  rw [pyRoundR, zero_mul, rheR_zero]
  norm_num

/-- C4: with a constant-return history the covariance matrix is zero, so
`optimize`'s portfolio volatility is zero and its unguarded
`(port_return - rf) / port_vol` division produces a non-finite Sharpe
ratio (`none` in the model) instead of the 0 the spec requires. -/
theorem c4_optimize_sharpe_not_finite :
    (optimizeCore ["A", "B"] c4rows (1/50) RiskProfile.moderate none).sharpe = none := by
  have ht : List.transpose [[(1:ℚ)/100, 1/100], [1/100, 1/100]]
      = [[(1:ℚ)/100, 1/100], [1/100, 1/100]] := rfl
  simp only [optimizeCore]
  split
  · next hlt =>
    exfalso
    norm_num [portVolSq, annualizedCov, sampleCov, listMean, normalizeL, chosenWeights,
      initialWeights, List.replicate, c4rows, ht] at hlt
  · rfl

/-- C7 (counterexample): with a three-day portfolio frame and a two-day
benchmark frame the return series lengths differ (2 vs 1), and the
reported beta is 1 — not the 0 the claim asserts. -/
theorem c7_mismatch_counterexample :
    (valueReturns (btPortfolioValues c7portfolio c7priceFrame 10000 "monthly")).length
      ≠ (valueReturns (btBenchValues "B" c7benchFrame 10000)).length
    ∧ (btStats c7portfolio c7priceFrame "B" c7benchFrame 10000 "monthly").beta ≠ 0 := by
  constructor
  · norm_num [btPortfolioValues, btBenchValues, calcPortfolioValues, portfolioSteps,
      normalizeDict, returnsRowsFill, pctRows, pctRow, valueReturns, pctSeries,
      c7portfolio, c7priceFrame, c7benchFrame, day1, day2, day3, rebalanceFlag,
      dictGet, rowGet]
  · norm_num [btStats, btStatsOf, betaAlpha, btPortfolioValues, btBenchValues,
      calcPortfolioValues, portfolioSteps, normalizeDict, returnsRowsFill, pctRows,
      pctRow, valueReturns, pctSeries, c7portfolio, c7priceFrame, c7benchFrame,
      day1, day2, day3, rebalanceFlag, dictGet, rowGet, pyRound, rhe]

/-- C7 (amended): whenever the portfolio and benchmark daily-return
series have different lengths, `run_backtest` reports beta = 1 and
alpha = 0 (the claim has the two defaults swapped), and no error is
raised. -/
theorem c7_mismatch_alpha_beta (portfolio : List (String × ℚ)) (priceData : PriceFrame)
    (benchmark : String) (benchData : PriceFrame) (initialValue : ℚ) (freq : String)
    (h : (valueReturns (btPortfolioValues portfolio priceData initialValue freq)).length
       ≠ (valueReturns (btBenchValues benchmark benchData initialValue)).length) :
    (btStats portfolio priceData benchmark benchData initialValue freq).beta = 1
    ∧ (btStats portfolio priceData benchmark benchData initialValue freq).alpha = 0 := by
  simp only [btStats, btStatsOf, betaAlpha, if_neg h]
  constructor <;> norm_num [pyRound, rhe]

/-- C7 (witness): the amended defaults at the concrete mismatched
frames. -/
theorem c7_mismatch_alpha_beta_witness :
    (btStats c7portfolio c7priceFrame "B" c7benchFrame 10000 "monthly").beta = 1
    ∧ (btStats c7portfolio c7priceFrame "B" c7benchFrame 10000 "monthly").alpha = 0 :=
  c7_mismatch_alpha_beta c7portfolio c7priceFrame "B" c7benchFrame 10000 "monthly"
    (by norm_num [btPortfolioValues, btBenchValues, calcPortfolioValues, portfolioSteps,
      normalizeDict, returnsRowsFill, pctRows, pctRow, valueReturns, pctSeries,
      c7portfolio, c7priceFrame, c7benchFrame, day1, day2, day3, rebalanceFlag,
      dictGet, rowGet])

/-- C8: a per-symbol fetch failure is not survivable for `optimize`: with
symbol A fetched (three days) and symbol B empty, the matrix silently
drops B but `n_assets` still counts both symbols, so the first objective
evaluation multiplies a 1-column mean-return series with a 2-entry weight
vector and pandas raises — the whole call fails instead of proceeding
with the remaining symbol. -/
theorem c8_partial_fetch_is_fatal :
    optimizeRun c8fetch ["A", "B"] (1/50) RiskProfile.moderate none
      = Except.error "Lengths must match" := by
  simp +decide [optimizeRun, returnsMatrixOf, priceFrameOf, keptSymbols, commonDates,
    seriesDates, lookupPrice, returnsRowsDrop, pctRows, pctRow, c8fetch,
    day1, day2, day3]

/-- C9: whenever the daily portfolio value series has no negative daily
return, the downside series is empty, its standard deviation is NaN (not
`> 0`), and `run_backtest` reports a Sortino ratio of exactly 0. -/
theorem c9_sortino_zero (portfolio : List (String × ℚ)) (priceData : PriceFrame)
    (benchmark : String) (benchData : PriceFrame) (initialValue : ℚ) (freq : String)
    (h : ∀ r ∈ valueReturns (btPortfolioValues portfolio priceData initialValue freq), 0 ≤ r) :
    (btStats portfolio priceData benchmark benchData initialValue freq).sortino = 0 := by
  have hfil : (valueReturns (btPortfolioValues portfolio priceData initialValue freq)).filter
      (fun r => decide (r < 0)) = [] := by
    rw [List.filter_eq_nil_iff]
    intro a ha
    simpa using not_lt.mpr (h a ha)
  simp only [btStats, btStatsOf, sortinoOf, hfil]
  rw [if_neg (by norm_num [stdIsPos])]
  exact pyRoundR_zero 2

/-- C9 (witness): a concrete monotone three-day backtest reports Sortino
0. -/
theorem c9_sortino_zero_witness :
    (btStats c7portfolio c7priceFrame "B" c7benchFrame 10000 "monthly").sortino = 0 :=
  c9_sortino_zero c7portfolio c7priceFrame "B" c7benchFrame 10000 "monthly"
    (by norm_num [btPortfolioValues, calcPortfolioValues, portfolioSteps,
      normalizeDict, returnsRowsFill, pctRows, pctRow, valueReturns, pctSeries,
      c7portfolio, c7priceFrame, day1, day2, day3, rebalanceFlag, dictGet, rowGet])

/-- The Pareto scan yields a subsequence of its input. -/
theorem effScan_sublist : ∀ (l : List FrontPt) (m : Option ℚ), (effScan l m).Sublist l := by
  intro l
  induction l with
  | nil => intro m; simp [effScan]
  | cons p rest ih =>
    intro m
    simp only [effScan]
    by_cases h : keepPt m p.ret
    · rw [if_pos h]
      exact (ih (some p.ret)).cons₂ p
    · rw [if_neg h]
      exact (ih m).cons p

/-- Every point the scan keeps strictly beats the incoming running
maximum return. -/
theorem effScan_lt : ∀ (l : List FrontPt) (v : ℚ), ∀ x ∈ effScan l (some v), v < x.ret := by
  intro l
  induction l with
  | nil => intro v x hx; simp [effScan] at hx
  | cons p rest ih =>
    intro v x hx
    simp only [effScan] at hx
    split at hx
    · next hk =>
      have hv : v < p.ret := by simpa [keepPt] using hk
      rcases List.mem_cons.mp hx with h1 | h1
      · rw [h1]; exact hv
      · exact hv.trans (ih p.ret x h1)
    · next hk => exact ih v x hx

/-- The scan output has strictly increasing returns between consecutive
entries. -/
theorem effScan_chain : ∀ (l : List FrontPt) (m : Option ℚ),
    (effScan l m).Chain' (fun a b => a.ret < b.ret) := by
  intro l
  induction l with
  | nil => intro m; simp [effScan]
  | cons p rest ih =>
    intro m
    simp only [effScan]
    split
    · refine List.chain'_cons'.mpr ⟨?_, ih (some p.ret)⟩
      intro y hy
      exact effScan_lt rest p.ret y (List.mem_of_mem_head? hy)
    · exact ih m

/-- C10: for every returns matrix, random-draw sequence and requested
size, the efficient-frontier list is sorted ascending by its stored
volatility, its stored returns strictly increase from one entry to the
next, and it has at most `n_portfolios` entries. -/
theorem c10_frontier_properties (rows draws : List (List ℚ)) (nPortfolios : ℕ) :
    (getEfficientFrontier rows draws nPortfolios).Pairwise (fun a b => a.vol ≤ b.vol)
    ∧ (getEfficientFrontier rows draws nPortfolios).Chain' (fun a b => a.ret < b.ret)
    ∧ (getEfficientFrontier rows draws nPortfolios).length ≤ nPortfolios := by
  simp only [getEfficientFrontier]
  split
  · simp
  · have htrans : ∀ a b c : FrontPt, decide (a.vol ≤ b.vol) = true →
        decide (b.vol ≤ c.vol) = true → decide (a.vol ≤ c.vol) = true := by
      intro a b c hab hbc
      exact decide_eq_true ((of_decide_eq_true hab).trans (of_decide_eq_true hbc))
    have htotal : ∀ a b : FrontPt,
        (decide (a.vol ≤ b.vol) || decide (b.vol ≤ a.vol)) = true := by
      intro a b
      rcases le_total a.vol b.vol with h | h <;> simp [h]
    have hsorted := List.sorted_mergeSort htrans htotal
      (draws.map (frontierPoint (annualizedMeans rows) (annualizedCov rows)))
    have hpair := hsorted.imp (fun h => of_decide_eq_true h)
    have hsub := (List.take_sublist nPortfolios _).trans
      (effScan_sublist ((draws.map (frontierPoint (annualizedMeans rows)
        (annualizedCov rows))).mergeSort (fun a b => decide (a.vol ≤ b.vol))) none)
    exact ⟨List.Pairwise.sublist hsub hpair, (effScan_chain _ _).take _,
      List.length_take_le _ _⟩

end InvestmentPlatform
